import Mathlib

/-!
# Verification of the debAIt provider-orchestration layer (`src/server.js`)

A shallow embedding of the orchestration core of `server.js`:

* a small JSON value type standing for JavaScript's dynamic values, with
  JS-truthiness and field access (`undefined` is `Option.none`);
* the per-adapter `close`-handlers of `callClaude`, `callGemini`, `callCodex`
  (exit-code policy, structured parsing, raw fallback), parameterised by a
  JSON-parse oracle `jparse : String → Option Json` standing for the external
  `JSON.parse` builtin (which either throws — `none` — or yields a value);
* the line-delimited event parser `parseCodexJSONL`;
* the discussion-prompt synthesiser `formatDiscussionPrompt`;
* the token-usage extractor `extractTokens`;
* the session registry and the `POST /ask` / `POST /new` handlers as
  functional steps over an association-list session map, taking the adapter
  invocation's outcome as an explicit parameter;
* the timeout/close/error callback wiring of an adapter call as a small
  event-trace state machine (a `Promise` settles at most once; the kill
  signal and timer state are tracked explicitly).

Typing choices (JavaScript is untyped, the model is typed): token-count
fields are read as integers (`jsNum0`), so a truthy *non-number* token field
would coerce to `0` here where JS would propagate the value; `event.item.text`
is read through `jsOr`, faithfully keeping the raw JSON value.  Machine
numbers are modelled as `Int` (token counts and exit codes are small
integers in practice).

The `try` blocks of the close handlers can throw beyond `JSON.parse`: the
logging preview `(x || "").slice(0, 100)` throws a `TypeError` when `x` is
truthy without a `.slice` method (only strings and arrays have one), and
property access on a parsed `null` document throws.  These throw conditions
are modelled explicitly (`previewThrows`, `claudeTryThrows`,
`geminiTryThrows`, `codexTryThrows`) and route to the raw-output fallback,
exactly as the `catch` does.
-/

/-- JSON values, standing for the JavaScript values flowing through
`server.js`.  Objects are association lists in field order. -/
inductive Json where
  | null : Json
  | bool : Bool → Json
  | num : Int → Json
  | str : String → Json
  | arr : List Json → Json
  | obj : List (String × Json) → Json

namespace Json

/-- Field access `v.f` on a JavaScript value: `none` models `undefined`
(absent field, or access on a non-object). -/
def get : Json → String → Option Json
  | obj fields, k => (fields.find? (fun p => p.1 == k)).map (·.2)
  | _, _ => none

/-- JavaScript truthiness of a defined value. -/
def truthy : Json → Bool
  | null => false
  | bool b => b
  | num n => n != 0
  | str s => s != ""
  | arr _ => true
  | obj _ => true

/-- Whether the value is JS `null` (property access on it throws a
`TypeError`). -/
def isNull : Json → Bool
  | null => true
  | _ => false

/-- `Object.values(v)`: the field values of an object, `[]` otherwise. -/
def values : Json → List Json
  | obj fields => fields.map (·.2)
  | _ => []

end Json

/-- Truthiness of a possibly-`undefined` value (`undefined` is falsy). -/
def otruthy : Option Json → Bool
  | some v => v.truthy
  | none => false

/-- The JS expression `a || b` where `a` is a (possibly undefined) field
read and `b` a default value. -/
def jsOr (a : Option Json) (b : Json) : Json :=
  match a with
  | some v => if v.truthy then v else b
  | none => b

/-- Read a token-count field: the integer when the field holds a number,
`0` otherwise (models `x || 0` on number-valued fields; `0` is falsy in JS
so a zero field and a missing field agree on `0`). -/
def jsNum0 : Option Json → Int
  | some (.num n) => n
  | _ => 0

/-- The JS expression `a || b || 0` on number-valued fields. -/
def jsNumOrElse (a b : Option Json) : Int :=
  match a with
  | some (.num n) => if n ≠ 0 then n else jsNum0 b
  | _ => jsNum0 b

/-- Strict equality `v === "s"` of a (possibly undefined) value with a
string literal. -/
def isStrEq (o : Option Json) (s : String) : Bool :=
  match o with
  | some (.str t) => t == s
  | _ => false

/-- `s.trim()`: strip leading and trailing whitespace (computable model of
JavaScript's `String.prototype.trim`). -/
def jsTrim (s : String) : String :=
  ⟨((s.data.dropWhile Char.isWhitespace).reverse.dropWhile Char.isWhitespace).reverse⟩

/-- `s.split(c)` over the character list: split at every occurrence of the
separator, keeping empty segments. -/
def splitOnChar (c : Char) : List Char → List (List Char)
  | [] => [[]]
  | x :: xs =>
    match splitOnChar c xs with
    | [] => [[x]]
    | cur :: rest => if x = c then [] :: cur :: rest else (x :: cur) :: rest

/-! ## `parseCodexJSONL` (src/server.js:152–188) -/

/-- The accumulator of `parseCodexJSONL`: `sessionId` starts as JS `null`
(here `Json.null`), `result` as `""` (kept as a JSON value: the source
assigns `event.item.text || ""`), `tokenUsage` as `null`, `aborted` as
`false`. -/
structure CodexParsed where
  sessionId : Json := .null
  result : Json := .str ""
  tokenUsage : Json := .null
  aborted : Bool := false

/-- The guard of the session-id `if` (src/server.js:164):
`event.type === "thread.started" && event.thread_id`. -/
def isThreadStartedEvent (event : Json) : Prop :=
  isStrEq (event.get "type") "thread.started" ∧ otruthy (event.get "thread_id")

instance (event : Json) : Decidable (isThreadStartedEvent event) := by
  unfold isThreadStartedEvent; infer_instance

/-- The guard of the result-text `if` (src/server.js:169):
`event.type === "item.completed" && event.item && event.item.type === "agent_message"`. -/
def isAgentMsgEvent (event : Json) : Prop :=
  isStrEq (event.get "type") "item.completed" ∧ otruthy (event.get "item") ∧
    isStrEq (((event.get "item").getD .null).get "type") "agent_message"

instance (event : Json) : Decidable (isAgentMsgEvent event) := by
  unfold isAgentMsgEvent; infer_instance

/-- The guard of the token-usage `if` (src/server.js:174):
`event.type === "turn.completed" && event.usage`. -/
def isTurnCompletedEvent (event : Json) : Prop :=
  isStrEq (event.get "type") "turn.completed" ∧ otruthy (event.get "usage")

instance (event : Json) : Decidable (isTurnCompletedEvent event) := by
  unfold isTurnCompletedEvent; infer_instance

/-- The guard of the aborted `if` (src/server.js:179):
`event.type === "turn.aborted"`. -/
def isTurnAbortedEvent (event : Json) : Prop :=
  isStrEq (event.get "type") "turn.aborted"

instance (event : Json) : Decidable (isTurnAbortedEvent event) := by
  unfold isTurnAbortedEvent; infer_instance

/-- An event matched by at least one of the loop's four guards. -/
def codexRelevantEvent (event : Json) : Prop :=
  isThreadStartedEvent event ∨ isAgentMsgEvent event ∨ isTurnCompletedEvent event ∨
    isTurnAbortedEvent event

instance (event : Json) : Decidable (codexRelevantEvent event) := by
  unfold codexRelevantEvent; infer_instance

/-- One successfully-parsed line of codex output folded into the
accumulator: the four independent `if`s of the loop body, in source
order. -/
def codexEventStep (st : CodexParsed) (event : Json) : CodexParsed :=
  let st :=
    if isThreadStartedEvent event then
      { st with sessionId := (event.get "thread_id").getD .null }
    else st
  let st :=
    if isAgentMsgEvent event then
      { st with result := jsOr (((event.get "item").getD .null).get "text") (.str "") }
    else st
  let st :=
    if isTurnCompletedEvent event then
      { st with tokenUsage := (event.get "usage").getD .null }
    else st
  if isTurnAbortedEvent event then { st with aborted := true } else st

/-- Fold a list of already-parsed events (the loop of `parseCodexJSONL`
restricted to the lines `JSON.parse` accepted). -/
def parseCodexEvents (events : List Json) : CodexParsed :=
  events.foldl codexEventStep {}

/-- The line list of `parseCodexJSONL`:
`stdout.trim().split("\n").filter(Boolean)`. -/
def codexLines (stdout : String) : List String :=
  ((splitOnChar '\n' (jsTrim stdout).data).map (fun l => String.mk l)).filter (fun l => l ≠ "")

/-- `parseCodexJSONL(stdout)` (src/server.js:152–188), parameterised by the
`JSON.parse` oracle: each line is parsed independently; a line on which
`JSON.parse` throws (`jparse` returns `none`) is silently skipped. -/
def parseCodexJSONL (jparse : String → Option Json) (stdout : String) : CodexParsed :=
  (codexLines stdout).foldl
    (fun st line =>
      match jparse line with
      | some event => codexEventStep st event
      | none => st)
    {}

/-- Whether a JS value has a `.slice` method: strings and arrays do, other
values (numbers, booleans, plain objects, `null`) do not — calling `.slice`
on them throws a `TypeError`. -/
def hasSlice : Json → Bool
  | .str _ => true
  | .arr _ => true
  | _ => false

/-- Whether the logging preview `(x || "").slice(0, 100)` throws: the
receiver is `x` when truthy and `""` otherwise, so it throws exactly when
the value is truthy without a `.slice` method. -/
def previewThrows (o : Option Json) : Bool :=
  !(hasSlice (jsOr o (.str "")))

/-! ## Adapter close handlers (src/server.js:118–142, 267–306, 354–384)

Each adapter's `close` callback is a pure function of the exit code and the
captured stdout/stderr, returning either a rejection message or the resolved
response object.  The `JSON.parse` builtin is the oracle parameter. -/

/-- The rejection message of a non-zero exit:
`reject(new Error(stderr || `<name> exited with code ${code}`))`. -/
def exitFailureMsg (name : String) (code : Int) (stderr : String) : String :=
  if stderr ≠ "" then stderr else name ++ " exited with code " ++ toString code

/-- The parse-failure fallback, identical in all three adapters:
`resolve({ result: stdout.trim() })`. -/
def rawFallback (stdout : String) : Json :=
  .obj [("result", .str (jsTrim stdout))]

/-- Whether `callClaude`'s in-try logging (src/server.js:131–136) throws
after a successful parse: reading `parsed.result` throws on a `null`
document, and `(parsed.result || "").slice(0, 100)` throws when the field
is truthy without a `.slice` method. -/
def claudeTryThrows (parsed : Json) : Bool :=
  parsed.isNull || previewThrows (parsed.get "result")

/-- `callClaude`'s close handler (src/server.js:118–142): non-zero exit
rejects; zero exit resolves the parsed JSON document whole — unless
`JSON.parse` or the in-try logging throws, in which case the catch resolves
the raw fallback. -/
def claudeClose (jparse : String → Option Json) (code : Int) (stdout stderr : String) :
    Except String Json :=
  if code ≠ 0 then .error (exitFailureMsg "claude" code stderr)
  else
    match jparse stdout with
    | some parsed =>
      if claudeTryThrows parsed then .ok (rawFallback stdout) else .ok parsed
    | none => .ok (rawFallback stdout)

/-- The token summation of `callGemini`'s parse branch
(src/server.js:280–290): walks `parsed.stats.models` (an object keyed by
model name), summing `tokens.input || 0` and
`tokens.candidates || tokens.output || 0` over every entry with a truthy
`tokens` field. -/
def geminiSumTokens (parsed : Json) : Int × Int :=
  if otruthy (parsed.get "stats") ∧ otruthy (((parsed.get "stats").getD .null).get "models") then
    let models := ((parsed.get "stats").getD .null).get "models"
    let values : List Json :=
      match models with
      | some (.obj fields) => fields.map (·.2)
      | _ => []
    values.foldl
      (fun acc modelData =>
        if otruthy (modelData.get "tokens") then
          let tokens := (modelData.get "tokens").getD .null
          (acc.1 + jsNum0 (tokens.get "input"),
           acc.2 + jsNumOrElse (tokens.get "candidates") (tokens.get "output"))
        else acc)
      (0, 0)
  else (0, 0)

/-- Whether `callGemini`'s in-try code (src/server.js:279–296) throws after
a successful parse: reading `parsed.stats` throws on a `null` document; the
token walk reads `modelData.tokens` and so throws when some entry of
`parsed.stats.models` is `null`; and the logging preview
`(parsed.response || "").slice(0, 100)` throws when the field is truthy
without a `.slice` method. -/
def geminiTryThrows (parsed : Json) : Bool :=
  parsed.isNull ||
  (otruthy (parsed.get "stats") &&
    otruthy (((parsed.get "stats").getD .null).get "models") &&
    (((((parsed.get "stats").getD .null).get "models").getD .null).values.any
      (fun m => m.isNull))) ||
  previewThrows (parsed.get "response")

/-- `callGemini`'s close handler (src/server.js:267–306): non-zero exit
rejects; zero exit resolves
`{ result: parsed.response, session_id: parsed.session_id, token_usage: {input, output} }`
— unless `JSON.parse` or the in-try code throws, in which case the catch
resolves the raw fallback.  An undefined `response` / `session_id` field is
modelled as `Json.null`. -/
def geminiClose (jparse : String → Option Json) (code : Int) (stdout stderr : String) :
    Except String Json :=
  if code ≠ 0 then .error (exitFailureMsg "gemini" code stderr)
  else
    match jparse stdout with
    | some parsed =>
      if geminiTryThrows parsed then .ok (rawFallback stdout)
      else
        let sums := geminiSumTokens parsed
        .ok (.obj
          [("result", (parsed.get "response").getD .null),
           ("session_id", (parsed.get "session_id").getD .null),
           ("token_usage", .obj [("input", .num sums.1), ("output", .num sums.2)])])
    | none => .ok (rawFallback stdout)

/-- Whether `callCodex`'s in-try logging (src/server.js:370–374) throws:
`parseCodexJSONL` itself is total, but the preview
`(parsed.result || "").slice(0, 100)` throws when the folded result text is
truthy without a `.slice` method (e.g. a numeric `item.text`). -/
def codexTryThrows (parsed : CodexParsed) : Bool :=
  previewThrows (some parsed.result)

/-- The `try` block of `callCodex`'s zero-exit branch (src/server.js:365–379):
it calls the total `parseCodexJSONL` and builds the response object; `none`
models the logging preview throwing, which routes to the `catch` fallback. -/
def codexTryBranch (jparse : String → Option Json) (stdout : String) : Option Json :=
  if codexTryThrows (parseCodexJSONL jparse stdout) then none
  else
    some (.obj
      [("result", (parseCodexJSONL jparse stdout).result),
       ("session_id", (parseCodexJSONL jparse stdout).sessionId),
       ("token_usage", (parseCodexJSONL jparse stdout).tokenUsage)])

/-- `callCodex`'s close handler (src/server.js:354–384): non-zero exit
rejects; zero exit resolves the folded JSONL events, with the raw fallback
reserved for a throw inside the try block. -/
def codexClose (jparse : String → Option Json) (code : Int) (stdout stderr : String) :
    Except String Json :=
  if code ≠ 0 then .error (exitFailureMsg "codex" code stderr)
  else
    match codexTryBranch jparse stdout with
    | some r => .ok r
    | none => .ok (rawFallback stdout)

/-! ## `extractTokens` (src/server.js:414–431) -/

/-- The normalized `{input, output}` token pair returned by `extractTokens`
(values kept as JSON values: the source's `||` chains propagate whatever the
fields hold). -/
structure Tokens where
  input : Json
  output : Json

/-- `extractTokens(result, provider)` (src/server.js:414–431): per-provider
normalization of the response's usage fields, defaulting to `{0, 0}`. -/
def extractTokens (result : Json) (provider : String) : Tokens :=
  if provider == "codex" ∧ otruthy (result.get "token_usage") then
    let tu := (result.get "token_usage").getD .null
    { input := jsOr (tu.get "input_tokens") (jsOr (tu.get "total_input_tokens") (.num 0)),
      output := jsOr (tu.get "output_tokens") (jsOr (tu.get "total_output_tokens") (.num 0)) }
  else if provider == "gemini" ∧ otruthy (result.get "token_usage") then
    let tu := (result.get "token_usage").getD .null
    { input := jsOr (tu.get "input") (.num 0), output := jsOr (tu.get "output") (.num 0) }
  else if provider == "claude" ∧ otruthy (result.get "usage") then
    let u := (result.get "usage").getD .null
    { input := .num (jsNum0 (u.get "input_tokens") + jsNum0 (u.get "cache_read_input_tokens") +
        jsNum0 (u.get "cache_creation_input_tokens")),
      output := jsOr (u.get "output_tokens") (.num 0) }
  else { input := .num 0, output := .num 0 }

/-! ## `formatDiscussionPrompt` (src/server.js:190–229) -/

/-- The `nameMap` literal (src/server.js:191), in source field order:
`{ claude: "Claude", codex: "Codex", gemini: "Gemini" }`. -/
def nameMapPairs : List (String × String) :=
  [("claude", "Claude"), ("codex", "Codex"), ("gemini", "Gemini")]

/-- `nameMap[p]`: `none` models an undefined lookup. -/
def nameMap (p : String) : Option String :=
  (nameMapPairs.find? (fun q => q.1 == p)).map (·.2)

/-- A history entry as the handler reads it: the fields `role`, `provider`,
`content` may each be absent (`none` models `undefined`; a JS `""` field is
falsy wherever the source tests truthiness, so both are covered by the
explicit emptiness tests below). -/
structure Msg where
  role : Option String := none
  provider : Option String := none
  content : String := ""

/-- `msg.provider && msg.provider !== targetProvider && nameMap[msg.provider]`
(src/server.js:203), as a Boolean guard. -/
def providerSeenGuard (provider : Option String) (targetProvider : String) : Bool :=
  match provider with
  | some p => p ≠ "" && p ≠ targetProvider && (nameMap p).isSome
  | none => false

/-- The `seen` set of the transcript scan (src/server.js:201–207): the
display names of providers other than the target that appear in the
history, in first-appearance order (a JS `Set` iterates in insertion
order). -/
def discussionSeen (history : List Msg) (targetProvider : String) : List String :=
  history.foldl
    (fun acc msg =>
      if providerSeenGuard msg.provider targetProvider then
        if ((nameMap (msg.provider.getD "")).getD "") ∈ acc then acc
        else acc ++ [(nameMap (msg.provider.getD "")).getD ""]
      else acc)
    []

/-- The transcript-scan fallback of `formatDiscussionPrompt`
(src/server.js:201–210): the seen display names, defaulting to every other
known display name (`Object.entries(nameMap)` in field order) when none
appear. -/
def discussionSeenNames (history : List Msg) (targetProvider : String) : List String :=
  if (discussionSeen history targetProvider).length = 0 then
    (nameMapPairs.filter (fun q => q.1 ≠ targetProvider)).map (·.2)
  else discussionSeen history targetProvider

/-- The other-participant computation of `formatDiscussionPrompt`
(src/server.js:194–211): the explicit participant list minus the target
(display-mapped, `nameMap[p] || p`), when that list is supplied and
non-empty; otherwise the transcript-scan fallback. -/
def discussionOtherNames (history : List Msg) (targetProvider : String)
    (participatingProviders : Option (List String)) : List String :=
  match participatingProviders with
  | some l =>
    if l.length > 0 then
      (l.filter (fun p => p ≠ targetProvider)).map (fun p => (nameMap p).getD p)
    else discussionSeenNames history targetProvider
  | none => discussionSeenNames history targetProvider

/-- The transcript block (src/server.js:214–221): `[Human]: <content>` for
role `"user"`, `[<DisplayName>]: <content>` for a recognized provider,
nothing otherwise, each followed by a blank line, in history order. -/
def discussionTranscript (history : List Msg) : String :=
  history.foldl
    (fun acc msg =>
      if msg.role = some "user" then
        acc ++ "[Human]: " ++ msg.content ++ "\n\n"
      else if providerRenderGuard msg.provider then
        acc ++ "[" ++ ((nameMap (msg.provider.getD "")).getD "") ++ "]: " ++ msg.content ++ "\n\n"
      else acc)
    ""
where
  /-- `msg.provider && nameMap[msg.provider]` (src/server.js:218). -/
  providerRenderGuard (provider : Option String) : Bool :=
    match provider with
    | some p => p ≠ "" && (nameMap p).isSome
    | none => false

/-- The per-entry rendering the transcript block amounts to (used to state
order preservation and silent omission). -/
def renderEntry (msg : Msg) : String :=
  if msg.role = some "user" then "[Human]: " ++ msg.content ++ "\n\n"
  else if discussionTranscript.providerRenderGuard msg.provider then
    "[" ++ ((nameMap (msg.provider.getD "")).getD "") ++ "]: " ++ msg.content ++ "\n\n"
  else ""

/-- Concatenation of rendered entries, in order. -/
def concatList : List String → String
  | [] => ""
  | s :: rest => s ++ concatList rest

/-- `formatDiscussionPrompt(history, targetProvider, participatingProviders)`
(src/server.js:190–229). -/
def formatDiscussionPrompt (history : List Msg) (targetProvider : String)
    (participatingProviders : Option (List String)) : String :=
  let providerName := (nameMap targetProvider).getD targetProvider
  let otherNames := discussionOtherNames history targetProvider participatingProviders
  let othersStr := String.intercalate " and " otherNames
  let transcript := discussionTranscript history
  "You are " ++ providerName ++ " in a roundtable discussion with " ++ othersStr ++
    " and a human moderator.\n\n" ++
    "Here is the full transcript so far:\n\n" ++ transcript ++
    "Now respond as " ++ providerName ++ ". Briefly summarize or quote the key points from " ++
    othersStr ++ " that you are addressing, then give your response. " ++
    "Engage directly with what each of the others said — agree, disagree, or build on their points. Do not prefix your response with your name."

/-- Whether `needle` occurs as a contiguous sublist of `haystack`. -/
def listContainsSub (needle : List Char) : List Char → Bool
  | [] => needle.isEmpty
  | c :: rest => needle.isPrefixOf (c :: rest) || listContainsSub needle rest

/-- Substring test (`haystack` contains `needle`). -/
def strContains (haystack needle : String) : Bool :=
  listContainsSub needle.toList haystack.toList

/-! ## Session registry and the `POST /ask` / `POST /new` handlers
(src/server.js:42–43, 471–482, 552–638)

The handlers are modelled as functional steps over an association-list
session map.  The fresh conversation id (`"conv_" + Date.now()`), the
creation timestamp, the CLI-availability probes (`fs.existsSync`) and the
adapter invocation's outcome are explicit parameters: they are the
handler's only interactions with the outside world. -/

/-- A stored conversation (src/server.js:42:
`{ sessionId, turns, created, provider }`). -/
structure Conv where
  sessionId : Json := .null
  turns : Nat := 0
  created : String := ""
  provider : Option String := none

/-- The session store, keyed by conversation id (the JS `Map`). -/
def SMap := List (String × Conv)

/-- `sessions.get(k)`: the newest binding for `k`. -/
def SMap.find (m : SMap) (k : String) : Option Conv :=
  (List.find? (fun p => p.1 == k) m).map (·.2)

/-- `sessions.set(k, v)`: prepend the binding; since `find` takes the
newest binding, this is observationally the `Map.set` overwrite. -/
def SMap.insert (m : SMap) (k : String) (v : Conv) : SMap :=
  (k, v) :: m

/-- Host environment: which optional CLI binaries `fs.existsSync` finds
(claude's path is probed nowhere in the handlers). -/
structure Env where
  codexAvailable : Bool := true
  geminiAvailable : Bool := true

/-- A `POST /ask` body as the handler reads it (`""` models an absent or
empty field: both are falsy where the source tests `!body.prompt`,
`body.provider || "claude"` and `!convId`). -/
structure AskRequest where
  prompt : String := ""
  provider : String := ""
  conversationId : String := ""

/-- The handler's observable outcome. -/
inductive AskOutcome where
  /-- 400 `Missing 'prompt' field` (src/server.js:557). -/
  | malformedRequest : AskOutcome
  /-- 400 `Invalid provider` (src/server.js:563). -/
  | invalidProvider : AskOutcome
  /-- 400 `<CLI> not found` (src/server.js:568, 571). -/
  | providerUnavailable : String → AskOutcome
  /-- 400 `Cannot switch provider mid-conversation. This conversation uses
  <stored>.` (src/server.js:585). -/
  | providerMismatch : String → AskOutcome
  /-- 500, the adapter's rejection message (src/server.js:636). -/
  | invokeFailed : String → AskOutcome
  /-- 200 `{ result, conversationId, provider, turn, ... }`
  (src/server.js:626–633). -/
  | ok : Json → String → String → Nat → AskOutcome

/-- Whether the outcome is the 200 response. -/
def AskOutcome.isOk : AskOutcome → Bool
  | .ok _ _ _ _ => true
  | _ => false

/-- The step's result: the session map afterwards, the outcome, and which
adapter kind was invoked (`none` when the request was rejected before any
spawn). -/
structure AskResult where
  sessions : SMap
  outcome : AskOutcome
  invoked : Option String := none

/-- `conv.provider && conv.provider !== provider` (src/server.js:584). -/
def storedMismatch (stored : Option String) (requested : String) : Bool :=
  match stored with
  | some p => p ≠ "" && p ≠ requested
  | none => false

/-- `!conv.provider` (src/server.js:589). -/
def providerUnset (stored : Option String) : Bool :=
  match stored with
  | some p => p = ""
  | none => true

/-- Conversation resolution of the `POST /ask` handler
(src/server.js:575–579): reuse the body's conversation id when it names a
known conversation, otherwise mint a fresh conversation (no continuation
token, zero turns) pinned to the requested provider under the fresh id.
Returns the conversation id used and the session map afterwards. -/
def askResolveConv (freshId created provider : String) (sessions : SMap)
    (reqConvId : String) : String × SMap :=
  if reqConvId = "" ∨ (SMap.find sessions reqConvId).isNone then
    (freshId, SMap.insert sessions freshId
      { sessionId := .null, turns := 0, created := created, provider := some provider })
  else (reqConvId, sessions)

/-- The invocation tail of the `POST /ask` handler (src/server.js:589–633),
entered after the pinning guard passes: bind the provider when unset
(line 589 — this happens before the adapter call, so it persists even on
failure), then consume the adapter's outcome; only on a resolved invocation
are the continuation token (when the response carries a truthy
`session_id`) and the turn counter updated. -/
def askInvokePhase (provider convId : String) (sessions1 : SMap) (conv : Conv)
    (adapterOutcome : Except String Json) : AskResult :=
  let conv1 :=
    if providerUnset conv.provider then { conv with provider := some provider } else conv
  let sessions2 := SMap.insert sessions1 convId conv1
  match adapterOutcome with
  | .error msg => ⟨sessions2, .invokeFailed msg, some provider⟩
  | .ok result =>
    let conv2 :=
      if otruthy (result.get "session_id") then
        { conv1 with sessionId := (result.get "session_id").getD .null }
      else conv1
    let conv3 := { conv2 with turns := conv2.turns + 1 }
    ⟨SMap.insert sessions2 convId conv3, .ok result convId provider conv3.turns, some provider⟩

/-- The `POST /ask` handler (src/server.js:552–638) as one step:
validation, conversation resolution/creation, the provider-pinning guard,
then the invocation tail. -/
def askStep (env : Env) (freshId created : String) (sessions : SMap)
    (req : AskRequest) (adapterOutcome : Except String Json) : AskResult :=
  if req.prompt = "" then ⟨sessions, .malformedRequest, none⟩
  else
    let provider := if req.provider = "" then "claude" else req.provider
    if provider ≠ "claude" ∧ provider ≠ "codex" ∧ provider ≠ "gemini" then
      ⟨sessions, .invalidProvider, none⟩
    else if provider = "codex" ∧ env.codexAvailable = false then
      ⟨sessions, .providerUnavailable "codex", none⟩
    else if provider = "gemini" ∧ env.geminiAvailable = false then
      ⟨sessions, .providerUnavailable "gemini", none⟩
    else
      let resolved := askResolveConv freshId created provider sessions req.conversationId
      let convId := resolved.1
      let sessions1 := resolved.2
      let conv := (SMap.find sessions1 convId).getD {}
      if conv.turns > 0 ∧ storedMismatch conv.provider provider then
        ⟨sessions1, .providerMismatch (conv.provider.getD ""), none⟩
      else askInvokePhase provider convId sessions1 conv adapterOutcome

/-- The `POST /new` handler (src/server.js:471–482): the provider defaults
to `"claude"` unless the body names `"codex"` or `"gemini"` (`none` models
an absent or unreadable body); a fresh conversation with no continuation
token and zero turns is stored under the fresh id. -/
def newStep (freshId created : String) (sessions : SMap) (bodyProvider : Option String) :
    SMap × String × String :=
  let provider :=
    match bodyProvider with
    | some p => if p = "codex" ∨ p = "gemini" then p else "claude"
    | none => "claude"
  (SMap.insert sessions freshId
    { sessionId := .null, turns := 0, created := created, provider := some provider },
    freshId, provider)

/-- One externally-triggered operation against the session store. -/
inductive Op where
  | newConv (freshId created : String) (bodyProvider : Option String) : Op
  | ask (env : Env) (freshId created : String) (req : AskRequest)
      (adapterOutcome : Except String Json) : Op

/-- The fresh conversation id an operation would mint. -/
def Op.freshId : Op → String
  | .newConv f _ _ => f
  | .ask _ f _ _ _ => f

/-- Apply one operation to the session store. -/
def runOp (sessions : SMap) : Op → SMap
  | .newConv f c bp => (newStep f c sessions bp).1
  | .ask env f c req out => (askStep env f c sessions req out).sessions

/-- Apply a sequence of operations. -/
def runOps (sessions : SMap) (ops : List Op) : SMap :=
  ops.foldl runOp sessions

/-! ## The adapter call as an event-trace machine
(src/server.js:112–116, 118, 144, 261–265, 348–352)

Each `callX` wires three callbacks around one promise: a 120-second
one-shot timer that kills the process with `SIGKILL` and rejects, the
`close` handler (which first clears the timer), and the spawn-`error`
handler.  A promise settles at most once — later `resolve`/`reject` calls
are no-ops.  The machine folds the callback firings in their real-time
order. -/

/-- `setTimeout(..., 120_000)`: the wall-clock bound, in milliseconds. -/
def TIMEOUT_MS : Nat := 120000

/-- A callback firing during one adapter invocation. -/
inductive AdapterEvent where
  /-- The 120-second timer expires (the process has not exited). -/
  | timerFire : AdapterEvent
  /-- The process exits and its streams end. -/
  | close (code : Int) (stdout stderr : String) : AdapterEvent
  /-- A spawn error. -/
  | procError (msg : String) : AdapterEvent

/-- The state of one invocation: how the promise settled (if it has), the
signal sent (if any), and whether the timer is still pending. -/
structure CallState where
  settled : Option (Except String Json) := none
  killSignal : Option String := none
  timerActive : Bool := true

/-- `resolve`/`reject`: a no-op once the promise has settled. -/
def settle (st : CallState) (v : Except String Json) : CallState :=
  if st.settled.isNone then { st with settled := some v } else st

/-- One callback firing.  The timer is one-shot (it cannot fire twice) and
is cleared by `clearTimeout` at the top of the `close` and `error`
handlers; `timerFire` kills with `SIGKILL` and rejects with the adapter's
timeout message. -/
def adapterStep (name : String) (closeFn : Int → String → String → Except String Json)
    (st : CallState) : AdapterEvent → CallState
  | .timerFire =>
    if st.timerActive then
      settle { st with killSignal := some "SIGKILL", timerActive := false }
        (.error (name ++ " timed out after 120s"))
    else st
  | .close code stdout stderr => settle { st with timerActive := false } (closeFn code stdout stderr)
  | .procError msg => settle { st with timerActive := false } (.error msg)

/-- Fold a firing order into the final invocation state. -/
def runAdapter (name : String) (closeFn : Int → String → String → Except String Json)
    (events : List AdapterEvent) : CallState :=
  events.foldl (adapterStep name closeFn) {}

/-- `callClaude`'s callback wiring (src/server.js:112–148). -/
def claudeCall (jparse : String → Option Json) : List AdapterEvent → CallState :=
  runAdapter "Claude" (claudeClose jparse)

/-- `callGemini`'s callback wiring (src/server.js:261–313). -/
def geminiCall (jparse : String → Option Json) : List AdapterEvent → CallState :=
  runAdapter "Gemini" (geminiClose jparse)

/-- `callCodex`'s callback wiring (src/server.js:348–391). -/
def codexCall (jparse : String → Option Json) : List AdapterEvent → CallState :=
  runAdapter "Codex" (codexClose jparse)

/-! ## Concrete inputs used in the statements below -/

/-- A `thread.started` event carrying a thread id. -/
def mkThreadStarted (t : String) : Json :=
  .obj [("type", .str "thread.started"), ("thread_id", .str t)]

/-- An `item.completed` event whose item is an `agent_message` with the
given text. -/
def mkAgentMsg (t : String) : Json :=
  .obj [("type", .str "item.completed"),
        ("item", .obj [("type", .str "agent_message"), ("text", .str t)])]

/-- A `turn.completed` event carrying a usage object. -/
def mkTurnCompleted (u : Json) : Json :=
  .obj [("type", .str "turn.completed"), ("usage", u)]

/-- The usage payload of the sample `turn.completed` event. -/
def codexSampleUsage : Json :=
  .obj [("input_tokens", .num 12), ("output_tokens", .num 34)]

/-- The four-event line-delimited output of the specification's parsing
example. -/
def codexSampleInput : String :=
  "\x7b\"type\":\"thread.started\",\"thread_id\":\"t1\"\x7d\n" ++
  "\x7b\"type\":\"item.completed\",\"item\":\x7b\"type\":\"agent_message\",\"text\":\"A\"\x7d\x7d\n" ++
  "\x7b\"type\":\"item.completed\",\"item\":\x7b\"type\":\"agent_message\",\"text\":\"B\"\x7d\x7d\n" ++
  "\x7b\"type\":\"turn.completed\",\"usage\":\x7b\"input_tokens\":12,\"output_tokens\":34\x7d\x7d"

/-- A `JSON.parse` oracle agreeing with real JSON parsing on the four
sample lines (and throwing elsewhere). -/
def codexSampleParse (line : String) : Option Json :=
  if line = "\x7b\"type\":\"thread.started\",\"thread_id\":\"t1\"\x7d" then
    some (mkThreadStarted "t1")
  else if line = "\x7b\"type\":\"item.completed\",\"item\":\x7b\"type\":\"agent_message\",\"text\":\"A\"\x7d\x7d" then
    some (mkAgentMsg "A")
  else if line = "\x7b\"type\":\"item.completed\",\"item\":\x7b\"type\":\"agent_message\",\"text\":\"B\"\x7d\x7d" then
    some (mkAgentMsg "B")
  else if line = "\x7b\"type\":\"turn.completed\",\"usage\":\x7b\"input_tokens\":12,\"output_tokens\":34\x7d\x7d" then
    some (mkTurnCompleted codexSampleUsage)
  else none

/-- An `agent_message` completion whose `text` is the number `123` — a
truthy value without a `.slice` method. -/
def numTextEvent : Json :=
  .obj [("type", .str "item.completed"),
        ("item", .obj [("type", .str "agent_message"), ("text", .num 123)])]

/-- The single output line carrying `numTextEvent`. -/
def numTextLine : String :=
  "\x7b\"type\":\"item.completed\",\"item\":\x7b\"type\":\"agent_message\",\"text\":123\x7d\x7d"

/-- A `JSON.parse` oracle agreeing with real JSON parsing on that line. -/
def numTextParse (line : String) : Option Json :=
  if line = numTextLine then some numTextEvent else none

/-- The discussion transcript exactly as the specification's example writes
it: a `"moderator"` role and agent-kind roles, no `provider` fields. -/
def specExampleTranscript : List Msg :=
  [{ role := some "moderator", content := "Topic?" },
   { role := some "claude", content := "X" },
   { role := some "gemini", content := "Y" }]

/-- The same discussion rendered in the field shapes the handler actually
reads: role `"user"` for the moderator and a `provider` field per agent
entry. -/
def handlerShapedTranscript : List Msg :=
  [{ role := some "user", content := "Topic?" },
   { provider := some "claude", content := "X" },
   { provider := some "gemini", content := "Y" }]

/-- Membership in the supported provider set. -/
def validProvider (p : String) : Prop :=
  p = "claude" ∨ p = "codex" ∨ p = "gemini"

/-! ## Helper lemmas -/

theorem foldl_parse_eq_filterMap (jparse : String → Option Json) (lines : List String)
    (init : CodexParsed) :
    lines.foldl
      (fun st line =>
        match jparse line with
        | some event => codexEventStep st event
        | none => st)
      init = (lines.filterMap jparse).foldl codexEventStep init := by
  induction lines generalizing init with
  | nil => rfl
  | cons l ls ih =>
    simp only [List.foldl_cons, List.filterMap_cons]
    cases jparse l <;> simp [ih]

theorem parseCodexJSONL_eq_parseEvents (jparse : String → Option Json) (stdout : String) :
    parseCodexJSONL jparse stdout = parseCodexEvents ((codexLines stdout).filterMap jparse) :=
  foldl_parse_eq_filterMap jparse (codexLines stdout) {}

theorem codexEventStep_result_eq (st : CodexParsed) (e : Json) (h : ¬ isAgentMsgEvent e) :
    (codexEventStep st e).result = st.result := by
  unfold codexEventStep
  split_ifs <;> simp_all

theorem codexEventStep_sessionId_eq (st : CodexParsed) (e : Json)
    (h : ¬ isThreadStartedEvent e) :
    (codexEventStep st e).sessionId = st.sessionId := by
  unfold codexEventStep
  split_ifs <;> simp_all

theorem codexEventStep_tokenUsage_eq (st : CodexParsed) (e : Json)
    (h : ¬ isTurnCompletedEvent e) :
    (codexEventStep st e).tokenUsage = st.tokenUsage := by
  unfold codexEventStep
  split_ifs <;> simp_all

theorem codexEventStep_irrelevant (st : CodexParsed) (e : Json)
    (h : ¬ codexRelevantEvent e) :
    codexEventStep st e = st := by
  unfold codexRelevantEvent at h
  push_neg at h
  unfold codexEventStep
  split_ifs <;> simp_all

theorem codexEventStep_agentMsg (st : CodexParsed) (e : Json) (h : isAgentMsgEvent e) :
    (codexEventStep st e).result = jsOr (((e.get "item").getD .null).get "text") (.str "") := by
  unfold codexEventStep
  split_ifs <;> simp_all

theorem foldl_result_preserved (es : List Json) (st : CodexParsed)
    (h : ∀ e ∈ es, ¬ isAgentMsgEvent e) :
    (es.foldl codexEventStep st).result = st.result := by
  induction es generalizing st with
  | nil => rfl
  | cons e es ih =>
    simp only [List.foldl_cons]
    rw [ih _ (fun x hx => h x (List.mem_cons_of_mem _ hx))]
    exact codexEventStep_result_eq st e (h e (List.mem_cons_self e es))

theorem SMap.find_insert (m : SMap) (k : String) (v : Conv) (k' : String) :
    SMap.find (SMap.insert m k v) k' = if k' = k then some v else SMap.find m k' := by
  unfold SMap.insert SMap.find
  rcases eq_or_ne k' k with h | h
  · subst h; simp [List.find?]
  · rw [if_neg h, List.find?_cons_of_neg]
    simp only [beq_iff_eq]
    exact Ne.symm h

theorem SMap.find_insert_self (m : SMap) (k : String) (v : Conv) :
    SMap.find (SMap.insert m k v) k = some v := by
  rw [SMap.find_insert, if_pos rfl]

theorem SMap.find_insert_ne (m : SMap) (k : String) (v : Conv) (k' : String) (h : k' ≠ k) :
    SMap.find (SMap.insert m k v) k' = SMap.find m k' := by
  rw [SMap.find_insert, if_neg h]

/-! ## The claims -/

/-- C4: for every adapter, a non-zero exit code always rejects the
invocation, regardless of the captured standard-output, and the rejection
message is the captured standard-error, or `<name> exited with code <code>`
when standard-error is empty. -/
theorem claim_C4_nonzero_exit_fails (jparse : String → Option Json) (code : Int)
    (stdout stderr : String) (h : code ≠ 0) :
    claudeClose jparse code stdout stderr = .error (exitFailureMsg "claude" code stderr) ∧
    geminiClose jparse code stdout stderr = .error (exitFailureMsg "gemini" code stderr) ∧
    codexClose jparse code stdout stderr = .error (exitFailureMsg "codex" code stderr) ∧
    (∀ name, stderr ≠ "" → exitFailureMsg name code stderr = stderr) ∧
    (∀ name, stderr = "" →
      exitFailureMsg name code stderr = name ++ " exited with code " ++ toString code) := by
  refine ⟨?_, ?_, ?_, ?_, ?_⟩
  · simp [claudeClose, h]
  · simp [geminiClose, h]
  · simp [codexClose, h]
  · intro name hs; simp [exitFailureMsg, hs]
  · intro name hs; simp [exitFailureMsg, hs]

/-- Witness for C4: exit code 1 with empty stderr yields the exit-code
message; exit code 2 with stderr `"boom"` yields `"boom"`, even though
standard-output was captured. -/
theorem claim_C4_witness :
    claudeClose (fun _ => none) 1 "partial output" "" = .error "claude exited with code 1" ∧
    codexClose (fun _ => none) 2 "partial output" "boom" = .error "boom" := by
  have h1 := claim_C4_nonzero_exit_fails (fun _ => none) 1 "partial output" "" (by decide)
  have h2 := claim_C4_nonzero_exit_fails (fun _ => none) 2 "partial output" "boom" (by decide)
  constructor
  · rw [h1.1, h1.2.2.2.2 "claude" rfl]
    congr 1
  · rw [h2.2.2.1, h2.2.2.2.1 "codex" (by decide)]

/-- C3: on zero exit with failed structured parsing, every adapter resolves
(rather than rejects) with the raw standard-output trimmed of surrounding
whitespace as the result, no continuation token, and extracted token usage
`{input: 0, output: 0}`.  For claude and gemini the parse failure is a
`JSON.parse` throw; for codex the identical fallback object is what the
catch branch resolves (reachable when the in-try result preview throws —
see C10). -/
theorem claim_C3_parse_failure_degrades (jparse : String → Option Json) (stdout stderr : String)
    (h : jparse stdout = none) :
    claudeClose jparse 0 stdout stderr = .ok (rawFallback stdout) ∧
    geminiClose jparse 0 stdout stderr = .ok (rawFallback stdout) ∧
    rawFallback stdout = .obj [("result", .str (jsTrim stdout))] ∧
    (rawFallback stdout).get "session_id" = none ∧
    extractTokens (rawFallback stdout) "claude" = ⟨.num 0, .num 0⟩ ∧
    extractTokens (rawFallback stdout) "gemini" = ⟨.num 0, .num 0⟩ ∧
    extractTokens (rawFallback stdout) "codex" = ⟨.num 0, .num 0⟩ := by
  refine ⟨?_, ?_, rfl, rfl, rfl, rfl, rfl⟩
  · simp [claudeClose, h]
  · simp [geminiClose, h]

/-- Witness for C3 at non-JSON output `"  oops  "`. -/
theorem claim_C3_witness :
    claudeClose (fun _ => none) 0 "  oops  " "" = .ok (rawFallback "  oops  ") ∧
    rawFallback "  oops  " = .obj [("result", .str "oops")] ∧
    extractTokens (rawFallback "  oops  ") "gemini" = ⟨.num 0, .num 0⟩ := by
  have h := claim_C3_parse_failure_degrades (fun _ => none) "  oops  " "" rfl
  have htrim : jsTrim "  oops  " = "oops" := by decide
  exact ⟨h.1, by rw [h.2.2.1, htrim], h.2.2.2.2.2.1⟩

theorem foldl_irrelevant_events (es : List Json) (st : CodexParsed)
    (h : ∀ e ∈ es, ¬ codexRelevantEvent e) :
    es.foldl codexEventStep st = st := by
  induction es generalizing st with
  | nil => rfl
  | cons e es ih =>
    simp only [List.foldl_cons]
    rw [codexEventStep_irrelevant st e (h e (List.mem_cons_self e es))]
    exact ih st (fun x hx => h x (List.mem_cons_of_mem _ hx))

theorem codexEventStep_threadStarted (st : CodexParsed) (e : Json)
    (h : isThreadStartedEvent e) :
    (codexEventStep st e).sessionId = (e.get "thread_id").getD .null := by
  unfold codexEventStep
  split_ifs <;> simp_all

theorem codexEventStep_turnCompleted (st : CodexParsed) (e : Json)
    (h : isTurnCompletedEvent e) :
    (codexEventStep st e).tokenUsage = (e.get "usage").getD .null := by
  unfold codexEventStep
  split_ifs <;> simp_all

theorem jsOr_str_empty (t : String) : jsOr (some (.str t)) (.str "") = .str t := by
  by_cases h : t = "" <;> simp [jsOr, Json.truthy, h]

theorem isAgentMsgEvent_mk (t : String) : isAgentMsgEvent (mkAgentMsg t) :=
  ⟨rfl, rfl, rfl⟩

theorem isThreadStartedEvent_mk (t : String) (h : t ≠ "") :
    isThreadStartedEvent (mkThreadStarted t) := by
  refine ⟨rfl, ?_⟩
  show (t != "") = true
  simp [h]

theorem isTurnCompletedEvent_mk (u : Json) (h : u.truthy) :
    isTurnCompletedEvent (mkTurnCompleted u) :=
  ⟨rfl, h⟩

theorem codexClose_zero_no_throw (jparse : String → Option Json) (s se : String)
    (ht : codexTryThrows (parseCodexJSONL jparse s) = false) :
    codexClose jparse 0 s se =
      .ok (.obj [("result", (parseCodexJSONL jparse s).result),
                 ("session_id", (parseCodexJSONL jparse s).sessionId),
                 ("token_usage", (parseCodexJSONL jparse s).tokenUsage)]) := by
  unfold codexClose codexTryBranch
  rw [if_neg (by decide : ¬((0 : Int) ≠ 0)), ht]
  rfl

theorem codexClose_zero_throw (jparse : String → Option Json) (s se : String)
    (ht : codexTryThrows (parseCodexJSONL jparse s) = true) :
    codexClose jparse 0 s se = .ok (rawFallback s) := by
  unfold codexClose codexTryBranch
  rw [if_neg (by decide : ¬((0 : Int) ≠ 0)), ht]
  rfl

set_option maxRecDepth 8000 in
/-- Counterexample for C10: on zero exit with the single line
`{"type":"item.completed","item":{"type":"agent_message","text":123}}`,
`parseCodexJSONL` folds `result` to the number `123` (truthy, so the
`|| ""` does not fire); the in-try preview `(parsed.result || "").slice(0, 100)`
then throws — numbers have no `.slice` — and the catch resolves the
raw-output fallback: the fallback branch is reachable on a string input
with zero exit. -/
theorem claim_C10_counterexample :
    (parseCodexJSONL numTextParse numTextLine).result = .num 123 ∧
    codexTryBranch numTextParse numTextLine = none ∧
    codexClose numTextParse 0 numTextLine "" = .ok (rawFallback numTextLine) ∧
    codexClose numTextParse 0 numTextLine "" = .ok (.obj [("result", .str numTextLine)]) := by
  exact ⟨rfl, rfl, rfl, rfl⟩

/-- C10 amended: `parseCodexJSONL` itself is total and yields the defaults
`{sessionId: null, result: "", tokenUsage: null, aborted: false}` when no
guard-matching event appears — and then the zero-exit close resolves the
structured default response; in general, on zero exit `callCodex` resolves
the structured response exactly when the in-try result preview does not
throw, and the raw-output catch fallback when it does (a truthy result text
without a `.slice` method), so the fallback branch is reachable. -/
theorem claim_C10_amended_totality (jparse : String → Option Json) (stdout : String)
    (h : ∀ e ∈ (codexLines stdout).filterMap jparse, ¬ codexRelevantEvent e) :
    parseCodexJSONL jparse stdout =
      { sessionId := .null, result := .str "", tokenUsage := .null, aborted := false } ∧
    (∀ se, codexClose jparse 0 stdout se =
      .ok (.obj [("result", .str ""), ("session_id", .null), ("token_usage", .null)])) ∧
    (∀ s se, codexTryThrows (parseCodexJSONL jparse s) = false →
      codexClose jparse 0 s se =
        .ok (.obj [("result", (parseCodexJSONL jparse s).result),
                   ("session_id", (parseCodexJSONL jparse s).sessionId),
                   ("token_usage", (parseCodexJSONL jparse s).tokenUsage)])) ∧
    (∀ s se, codexTryThrows (parseCodexJSONL jparse s) = true →
      codexClose jparse 0 s se = .ok (rawFallback s)) := by
  have hdef : parseCodexJSONL jparse stdout =
      { sessionId := .null, result := .str "", tokenUsage := .null, aborted := false } := by
    rw [parseCodexJSONL_eq_parseEvents]
    exact foldl_irrelevant_events _ _ h
  refine ⟨hdef, ?_, fun s se ht => codexClose_zero_no_throw jparse s se ht,
    fun s se ht => codexClose_zero_throw jparse s se ht⟩
  intro se
  have ht : codexTryThrows (parseCodexJSONL jparse stdout) = false := by
    rw [hdef]
    rfl
  rw [codexClose_zero_no_throw jparse stdout se ht, hdef]

set_option maxRecDepth 8000 in
/-- Witness for C10: a two-line non-JSON output yields the defaults and the
structured default response; the numeric-text line takes the raw fallback. -/
theorem claim_C10_witness :
    parseCodexJSONL (fun _ => none) "not json\n\x7btruncated" =
      { sessionId := .null, result := .str "", tokenUsage := .null, aborted := false } ∧
    codexClose (fun _ => none) 0 "not json\n\x7btruncated" "" =
      .ok (.obj [("result", .str ""), ("session_id", .null), ("token_usage", .null)]) ∧
    codexClose numTextParse 0 numTextLine "" = .ok (rawFallback numTextLine) := by
  have h1 := claim_C10_amended_totality (fun _ => none) "not json\n\x7btruncated" (by decide)
  have h2 := claim_C10_amended_totality numTextParse "" (by decide)
  exact ⟨h1.1, h1.2.1 "", h2.2.2.2 numTextLine "" (by rfl)⟩

set_option maxRecDepth 8000 in
/-- C5: line-delimited parsing — malformed lines are silently skipped
(parsing equals folding only the lines the oracle accepts); the last
`agent_message` completion wins; with no `agent_message` completion the
result text stays empty; a `thread.started` event with a thread id supplies
the session id; a `turn.completed` event with usage supplies the usage; and
the specification's four-event example folds to
`sessionId = "t1"`, `result = "B"`, populated usage. -/
theorem claim_C5_jsonl_semantics (jparse : String → Option Json) (stdout : String) :
    parseCodexJSONL jparse stdout = parseCodexEvents ((codexLines stdout).filterMap jparse) ∧
    (∀ es1 es2 t, (∀ e ∈ es2, ¬ isAgentMsgEvent e) →
      (parseCodexEvents (es1 ++ mkAgentMsg t :: es2)).result = .str t) ∧
    (∀ es, (∀ e ∈ es, ¬ isAgentMsgEvent e) → (parseCodexEvents es).result = .str "") ∧
    (∀ es t, t ≠ "" → (parseCodexEvents (es ++ [mkThreadStarted t])).sessionId = .str t) ∧
    (∀ es u, u.truthy → (parseCodexEvents (es ++ [mkTurnCompleted u])).tokenUsage = u) ∧
    parseCodexJSONL codexSampleParse codexSampleInput =
      { sessionId := .str "t1", result := .str "B", tokenUsage := codexSampleUsage,
        aborted := false } := by
  refine ⟨parseCodexJSONL_eq_parseEvents jparse stdout, ?_, ?_, ?_, ?_, ?_⟩
  · intro es1 es2 t h
    unfold parseCodexEvents
    rw [List.foldl_append, List.foldl_cons, foldl_result_preserved es2 _ h,
      codexEventStep_agentMsg _ _ (isAgentMsgEvent_mk t)]
    exact jsOr_str_empty t
  · intro es h
    exact foldl_result_preserved es {} h
  · intro es t ht
    unfold parseCodexEvents
    rw [List.foldl_append]
    simp only [List.foldl_cons, List.foldl_nil]
    rw [codexEventStep_threadStarted _ _ (isThreadStartedEvent_mk t ht)]
    rfl
  · intro es u hu
    unfold parseCodexEvents
    rw [List.foldl_append]
    simp only [List.foldl_cons, List.foldl_nil]
    rw [codexEventStep_turnCompleted _ _ (isTurnCompletedEvent_mk u hu)]
    rfl
  · rfl

/-- Witness for C5: concrete folds, including the two-message last-wins
case. -/
theorem claim_C5_witness :
    (parseCodexEvents ([mkAgentMsg "A"] ++ mkAgentMsg "B" :: [])).result = .str "B" ∧
    (parseCodexEvents [mkTurnCompleted codexSampleUsage]).result = .str "" ∧
    (parseCodexEvents ([] ++ [mkThreadStarted "t1"])).sessionId = .str "t1" ∧
    (parseCodexEvents ([] ++ [mkTurnCompleted codexSampleUsage])).tokenUsage =
      codexSampleUsage := by
  have h := claim_C5_jsonl_semantics (fun _ => none) ""
  refine ⟨h.2.1 [mkAgentMsg "A"] [] "B" (by simp),
          h.2.2.1 [mkTurnCompleted codexSampleUsage] ?_,
          h.2.2.2.1 [] "t1" (by decide),
          h.2.2.2.2.1 [] codexSampleUsage rfl⟩
  intro e he
  rw [List.mem_singleton] at he
  subst he
  intro hc
  exact absurd hc.1 (by decide)

theorem transcript_body_eq (acc : String) (msg : Msg) :
    (if msg.role = some "user" then acc ++ "[Human]: " ++ msg.content ++ "\n\n"
     else if discussionTranscript.providerRenderGuard msg.provider then
       acc ++ "[" ++ ((nameMap (msg.provider.getD "")).getD "") ++ "]: " ++ msg.content ++ "\n\n"
     else acc) = acc ++ renderEntry msg := by
  unfold renderEntry
  split_ifs <;> simp [String.append_assoc, String.append_empty]

theorem discussionTranscript_foldl (history : List Msg) (acc : String) :
    history.foldl
      (fun acc msg =>
        if msg.role = some "user" then acc ++ "[Human]: " ++ msg.content ++ "\n\n"
        else if discussionTranscript.providerRenderGuard msg.provider then
          acc ++ "[" ++ ((nameMap (msg.provider.getD "")).getD "") ++ "]: " ++ msg.content ++ "\n\n"
        else acc)
      acc = acc ++ concatList (history.map renderEntry) := by
  induction history generalizing acc with
  | nil => simp [concatList, String.append_empty]
  | cons m rest ih =>
    simp only [List.foldl_cons, List.map_cons]
    rw [transcript_body_eq acc m, ih, concatList, String.append_assoc]

theorem discussionTranscript_eq_concat (history : List Msg) :
    discussionTranscript history = concatList (history.map renderEntry) := by
  unfold discussionTranscript
  rw [discussionTranscript_foldl, String.empty_append]

set_option maxRecDepth 20000 in
/-- Counterexample for C6: on the claim's transcript — entries shaped
`{role:"moderator"|agentKind, content}` — the handler recognizes no entry
(it tests `role === "user"` and a `provider` field), so the synthesized
prompt for target `"gemini"` contains neither `[Human]: Topic?` nor
`[Claude]: X`, and the other-participant list falls back to
`["Claude", "Codex"]` rather than naming only `"Claude"`. -/
theorem claim_C6_counterexample :
    strContains (formatDiscussionPrompt specExampleTranscript "gemini" none)
      "[Human]: Topic?" = false ∧
    strContains (formatDiscussionPrompt specExampleTranscript "gemini" none)
      "[Claude]: X" = false ∧
    discussionTranscript specExampleTranscript = "" ∧
    discussionOtherNames specExampleTranscript "gemini" none = ["Claude", "Codex"] := by
  refine ⟨by decide, by decide, rfl, rfl⟩

set_option maxRecDepth 20000 in
/-- C6 amended: the transcript block renders entries in order — role
`"user"` as `[Human]: <content>`, a recognized `provider` field as
`[<DisplayName>]: <content>`, each followed by a blank line, silently
omitting the rest; on the example transcript in the handler's field shapes,
the target-`"gemini"` prompt names `"Claude"` alone as the other
participant, contains the rendered lines, and instructs the target not to
prefix its reply with its own name. -/
theorem claim_C6_amended (history : List Msg) :
    discussionTranscript history = concatList (history.map renderEntry) ∧
    discussionOtherNames handlerShapedTranscript "gemini" none = ["Claude"] ∧
    discussionTranscript handlerShapedTranscript =
      "[Human]: Topic?\n\n[Claude]: X\n\n[Gemini]: Y\n\n" ∧
    strContains (formatDiscussionPrompt handlerShapedTranscript "gemini" none)
      "[Human]: Topic?\n\n[Claude]: X\n\n" = true ∧
    strContains (formatDiscussionPrompt handlerShapedTranscript "gemini" none)
      "roundtable discussion with Claude and a human moderator" = true ∧
    strContains (formatDiscussionPrompt handlerShapedTranscript "gemini" none)
      "Do not prefix your response with your name." = true := by
  refine ⟨discussionTranscript_eq_concat history, rfl, by decide, by decide, by decide, by decide⟩

/-- Counterexample for C7: an explicit participant list containing only the
target yields an empty other-participant list — the non-emptiness guarantee
fails for the explicit-list branch. -/
theorem claim_C7_counterexample :
    discussionOtherNames [] "gemini" (some ["gemini"]) = [] := rfl

/-- C7 amended: with an explicit non-empty participant list, the
other-participant list is exactly that list minus the target, display-mapped
(and may be empty); when the list is absent or empty, the transcript-scan
fallback chain always yields a non-empty list. -/
theorem claim_C7_amended (history : List Msg) (target : String)
    (parts : Option (List String)) :
    (∀ l, parts = some l → l.length > 0 →
      discussionOtherNames history target parts =
        (l.filter (fun p => p ≠ target)).map (fun p => (nameMap p).getD p)) ∧
    (parts = none ∨ parts = some [] → discussionOtherNames history target parts ≠ []) := by
  constructor
  · intro l hl hlen
    subst hl
    simp only [discussionOtherNames]
    rw [if_pos hlen]
  · intro hp
    have hgoal : discussionSeenNames history target ≠ [] := by
      unfold discussionSeenNames
      split
      · intro hmap
        rw [List.map_eq_nil_iff, List.filter_eq_nil_iff] at hmap
        by_cases hc : target = "claude"
        · have := hmap ("codex", "Codex") (by simp [nameMapPairs])
          simp at this
          exact absurd (hc ▸ this) (by decide)
        · have := hmap ("claude", "Claude") (by simp [nameMapPairs])
          simp at this
          exact hc this.symm
      · rename_i hs
        intro hnil
        rw [hnil] at hs
        exact hs rfl
    rcases hp with h | h <;> subst h
    · exact hgoal
    · unfold discussionOtherNames
      simpa using hgoal

/-- Witness for C7: explicit list `["claude", "gemini"]` with target
`"gemini"` yields `["Claude"]`; absent list yields a non-empty fallback. -/
theorem claim_C7_witness :
    discussionOtherNames [] "gemini" (some ["claude", "gemini"]) = ["Claude"] ∧
    discussionOtherNames [] "gemini" none ≠ [] := by
  have h1 := claim_C7_amended [] "gemini" (some ["claude", "gemini"])
  have h2 := claim_C7_amended [] "gemini" none
  refine ⟨?_, h2.2 (Or.inl rfl)⟩
  rw [h1.1 ["claude", "gemini"] rfl (by decide)]
  rfl

theorem foldl_adapter_frozen (name : String)
    (closeFn : Int → String → String → Except String Json) (events : List AdapterEvent)
    (st : CallState) (r : Except String Json)
    (h1 : st.settled = some r) (h2 : st.timerActive = false) :
    events.foldl (adapterStep name closeFn) st = st := by
  induction events generalizing st with
  | nil => rfl
  | cons e es ih =>
    have hstep : adapterStep name closeFn st e = st := by
      have hfrozen : { st with timerActive := false } = st := by
        cases st
        simp_all
      cases e with
      | timerFire => simp [adapterStep, h2]
      | close code stdout stderr =>
        show settle { st with timerActive := false } _ = st
        rw [hfrozen]
        simp [settle, h1]
      | procError msg =>
        show settle { st with timerActive := false } _ = st
        rw [hfrozen]
        simp [settle, h1]
    simp only [List.foldl_cons, hstep]
    exact ih st h1 h2

theorem runAdapter_timeout_first (name : String)
    (closeFn : Int → String → String → Except String Json) (events : List AdapterEvent) :
    runAdapter name closeFn (.timerFire :: events) =
      { settled := some (.error (name ++ " timed out after 120s")),
        killSignal := some "SIGKILL", timerActive := false } := by
  unfold runAdapter
  rw [List.foldl_cons]
  have hstep : adapterStep name closeFn {} .timerFire =
      { settled := some (.error (name ++ " timed out after 120s")),
        killSignal := some "SIGKILL", timerActive := false } := by
    simp [adapterStep, settle]
  rw [hstep]
  exact foldl_adapter_frozen name closeFn events _ _ rfl rfl

/-- C9: the wall-clock bound is the constant 120 000 ms; in any firing
order in which the timer expires before the process has exited (and before
any spawn error), every adapter's invocation ends rejected with its timeout
message and with `SIGKILL` sent — regardless of what the process does
afterwards — rather than staying pending. -/
theorem claim_C9_timeout_policy (jparse : String → Option Json) (events : List AdapterEvent) :
    TIMEOUT_MS = 120000 ∧
    claudeCall jparse (.timerFire :: events) =
      { settled := some (.error "Claude timed out after 120s"),
        killSignal := some "SIGKILL", timerActive := false } ∧
    geminiCall jparse (.timerFire :: events) =
      { settled := some (.error "Gemini timed out after 120s"),
        killSignal := some "SIGKILL", timerActive := false } ∧
    codexCall jparse (.timerFire :: events) =
      { settled := some (.error "Codex timed out after 120s"),
        killSignal := some "SIGKILL", timerActive := false } := by
  refine ⟨rfl, ?_, ?_, ?_⟩
  · rw [show claudeCall jparse (.timerFire :: events) =
      runAdapter "Claude" (claudeClose jparse) (.timerFire :: events) from rfl,
      runAdapter_timeout_first]
    rfl
  · rw [show geminiCall jparse (.timerFire :: events) =
      runAdapter "Gemini" (geminiClose jparse) (.timerFire :: events) from rfl,
      runAdapter_timeout_first]
    rfl
  · rw [show codexCall jparse (.timerFire :: events) =
      runAdapter "Codex" (codexClose jparse) (.timerFire :: events) from rfl,
      runAdapter_timeout_first]
    rfl

theorem askInvokePhase_preserves (provider convId : String) (sessions1 : SMap)
    (conv0 : Conv) (out : Except String Json) (cid : String) (conv : Conv)
    (hfind1 : SMap.find sessions1 cid = some conv)
    (hconv0 : convId = cid → conv0 = conv) :
    ∃ conv',
      SMap.find (askInvokePhase provider convId sessions1 conv0 out).sessions cid = some conv' ∧
      (∀ A, A ≠ "" → conv.provider = some A → conv'.provider = some A) ∧
      ((askInvokePhase provider convId sessions1 conv0 out).outcome.isOk = false →
        conv'.turns = conv.turns ∧ conv'.sessionId = conv.sessionId) := by
  by_cases hc : convId = cid
  · have h0 : conv0 = conv := hconv0 hc
    subst h0
    subst hc
    rcases out with msg | result
    · refine ⟨if providerUnset conv0.provider then { conv0 with provider := some provider }
        else conv0, ?_, ?_, ?_⟩
      · exact SMap.find_insert_self _ _ _
      · intro A hA hp
        have hunset : providerUnset conv0.provider = false := by
          rw [hp]; simp [providerUnset, hA]
        simp only [hunset, Bool.false_eq_true, if_false]
        exact hp
      · intro _
        constructor <;> (split <;> rfl)
    · refine ⟨_, SMap.find_insert_self _ _ _, ?_, ?_⟩
      · intro A hA hp
        have hunset : providerUnset conv0.provider = false := by
          rw [hp]; simp [providerUnset, hA]
        simp only [hunset, if_false, Bool.false_eq_true]
        split <;> simp [hp]
      · intro hok
        simp [askInvokePhase, AskOutcome.isOk] at hok
  · have hfind2 : ∀ v, SMap.find (SMap.insert sessions1 convId v) cid = some conv := by
      intro v
      rw [SMap.find_insert_ne _ _ _ _ (Ne.symm hc)]
      exact hfind1
    rcases out with msg | result
    · exact ⟨conv, hfind2 _, fun _ _ h => h, fun _ => ⟨rfl, rfl⟩⟩
    · refine ⟨conv, ?_, fun _ _ h => h, fun _ => ⟨rfl, rfl⟩⟩
      show SMap.find (SMap.insert (SMap.insert sessions1 convId _) convId _) cid = some conv
      rw [SMap.find_insert_ne _ _ _ _ (Ne.symm hc)]
      exact hfind2 _

theorem askResolve_props (freshId created provider : String) (sessions : SMap)
    (rid cid : String) (conv : Conv)
    (hfind : SMap.find sessions cid = some conv) (hfresh : freshId ≠ cid) :
    SMap.find (askResolveConv freshId created provider sessions rid).2 cid = some conv ∧
    ((askResolveConv freshId created provider sessions rid).1 = cid →
      (SMap.find (askResolveConv freshId created provider sessions rid).2
        (askResolveConv freshId created provider sessions rid).1).getD {} = conv) := by
  unfold askResolveConv
  split
  · constructor
    · dsimp only
      rw [SMap.find_insert_ne _ _ _ _ (Ne.symm hfresh)]
      exact hfind
    · intro h
      dsimp only at h
      exact absurd h hfresh
  · refine ⟨hfind, fun h => ?_⟩
    dsimp only at h ⊢
    rw [h, hfind]
    rfl

theorem askStep_preserves (env : Env) (freshId created : String) (sessions : SMap)
    (req : AskRequest) (out : Except String Json) (cid : String) (conv : Conv)
    (hfind : SMap.find sessions cid = some conv) (hfresh : freshId ≠ cid) :
    ∃ conv',
      SMap.find (askStep env freshId created sessions req out).sessions cid = some conv' ∧
      (∀ A, A ≠ "" → conv.provider = some A → conv'.provider = some A) ∧
      ((askStep env freshId created sessions req out).outcome.isOk = false →
        conv'.turns = conv.turns ∧ conv'.sessionId = conv.sessionId) := by
  simp only [askStep]
  by_cases h1 : req.prompt = ""
  · simp only [if_pos h1]
    exact ⟨conv, hfind, fun _ _ h => h, fun _ => ⟨rfl, rfl⟩⟩
  · simp only [if_neg h1]
    generalize hP : (if req.provider = "" then "claude" else req.provider) = P
    by_cases h2 : P ≠ "claude" ∧ P ≠ "codex" ∧ P ≠ "gemini"
    · simp only [if_pos h2]
      exact ⟨conv, hfind, fun _ _ h => h, fun _ => ⟨rfl, rfl⟩⟩
    · simp only [if_neg h2]
      by_cases h3 : P = "codex" ∧ env.codexAvailable = false
      · simp only [if_pos h3]
        exact ⟨conv, hfind, fun _ _ h => h, fun _ => ⟨rfl, rfl⟩⟩
      · simp only [if_neg h3]
        by_cases h4 : P = "gemini" ∧ env.geminiAvailable = false
        · simp only [if_pos h4]
          exact ⟨conv, hfind, fun _ _ h => h, fun _ => ⟨rfl, rfl⟩⟩
        · simp only [if_neg h4]
          have hres := askResolve_props freshId created P sessions req.conversationId cid conv
            hfind hfresh
          by_cases h6 :
            ((SMap.find (askResolveConv freshId created P sessions req.conversationId).2
              (askResolveConv freshId created P sessions req.conversationId).1).getD {}).turns
                > 0 ∧
            storedMismatch
              ((SMap.find (askResolveConv freshId created P sessions req.conversationId).2
                (askResolveConv freshId created P sessions req.conversationId).1).getD
                  {}).provider P
          · simp only [if_pos h6]
            exact ⟨conv, hres.1, fun _ _ h => h, fun _ => ⟨rfl, rfl⟩⟩
          · simp only [if_neg h6]
            exact askInvokePhase_preserves P _ _ _ out cid conv hres.1 hres.2

theorem askStep_error_not_ok (env : Env) (freshId created : String) (sessions : SMap)
    (req : AskRequest) (msg : String) :
    (askStep env freshId created sessions req (.error msg)).outcome.isOk = false := by
  simp only [askStep]
  split_ifs <;> rfl

/-- C2: every failing adapter outcome (timeout, non-zero exit and spawn
error all reject the invocation promise with a message) leaves the
conversation's turn count and continuation token exactly as they were
before the call; more generally, whenever the step does not end in the 200
success outcome, both fields are unchanged — they are updated only by a
successful invocation. -/
theorem claim_C2_failure_preserves (env : Env) (freshId created : String) (sessions : SMap)
    (req : AskRequest) (cid : String) (conv : Conv)
    (hfind : SMap.find sessions cid = some conv) (hfresh : freshId ≠ cid) :
    (∀ msg, (askStep env freshId created sessions req (.error msg)).outcome.isOk = false) ∧
    (∀ out, (askStep env freshId created sessions req out).outcome.isOk = false →
      ∃ conv',
        SMap.find (askStep env freshId created sessions req out).sessions cid = some conv' ∧
        conv'.turns = conv.turns ∧ conv'.sessionId = conv.sessionId) := by
  refine ⟨fun msg => askStep_error_not_ok env freshId created sessions req msg,
    fun out hnot => ?_⟩
  obtain ⟨conv', hf, _, hpres⟩ :=
    askStep_preserves env freshId created sessions req out cid conv hfind hfresh
  exact ⟨conv', hf, hpres hnot⟩

/-- Witness for C2: a timed-out invocation against a two-turn conversation
leaves its turn count and continuation token untouched. -/
theorem claim_C2_witness :
    ∃ conv',
      SMap.find (askStep {} "c9" "t2"
        [("c1", { sessionId := .str "sess", turns := 2, created := "t1",
                  provider := some "claude" })]
        { prompt := "hi", provider := "claude", conversationId := "c1" }
        (.error "Claude timed out after 120s")).sessions "c1" = some conv' ∧
      conv'.turns = 2 ∧ conv'.sessionId = .str "sess" := by
  have h := claim_C2_failure_preserves {} "c9" "t2"
    [("c1", { sessionId := .str "sess", turns := 2, created := "t1",
              provider := some "claude" })]
    { prompt := "hi", provider := "claude", conversationId := "c1" } "c1"
    { sessionId := .str "sess", turns := 2, created := "t1", provider := some "claude" }
    rfl (by decide)
  exact h.2 (.error "Claude timed out after 120s") (h.1 "Claude timed out after 120s")

/-- C1: against a conversation that already has a recorded turn under
pinned kind `A`, an `/ask` requesting a valid, available kind other than
`A` returns the provider-mismatch rejection with the stored kind, invokes
no adapter (the result is the same whatever the adapter outcome parameter
is, and `invoked = none`), and leaves the session map — hence the stored
kind — untouched. -/
theorem claim_C1_pinned_mismatch (env : Env) (freshId created : String) (sessions : SMap)
    (req : AskRequest) (out : Except String Json) (cid A : String) (conv : Conv)
    (hfind : SMap.find sessions cid = some conv)
    (hturns : conv.turns > 0)
    (hA : conv.provider = some A) (hA0 : A ≠ "")
    (hprompt : req.prompt ≠ "")
    (hcid : req.conversationId = cid) (hcid0 : cid ≠ "")
    (hB : validProvider req.provider) (hBA : req.provider ≠ A)
    (hco : req.provider = "codex" → env.codexAvailable = true)
    (hge : req.provider = "gemini" → env.geminiAvailable = true) :
    askStep env freshId created sessions req out = ⟨sessions, .providerMismatch A, none⟩ := by
  have hB0 : req.provider ≠ "" := by rcases hB with h | h | h <;> simp [h]
  have hval : ¬(req.provider ≠ "claude" ∧ req.provider ≠ "codex" ∧ req.provider ≠ "gemini") := by
    rcases hB with h | h | h <;> simp [h]
  have hc3 : ¬(req.provider = "codex" ∧ env.codexAvailable = false) := by
    rintro ⟨hx, hy⟩
    rw [hco hx] at hy
    exact absurd hy (by decide)
  have hc4 : ¬(req.provider = "gemini" ∧ env.geminiAvailable = false) := by
    rintro ⟨hx, hy⟩
    rw [hge hx] at hy
    exact absurd hy (by decide)
  have hresolve : askResolveConv freshId created req.provider sessions req.conversationId =
      (cid, sessions) := by
    unfold askResolveConv
    rw [hcid, hfind]
    rw [if_neg]
    simp [hcid0]
  have hsm : storedMismatch conv.provider req.provider = true := by
    rw [hA]
    simp [storedMismatch, hA0, Ne.symm hBA]
  simp only [askStep]
  rw [if_neg hprompt, if_neg hB0, if_neg hval, if_neg hc3, if_neg hc4, hresolve]
  dsimp only
  rw [hfind]
  simp only [Option.getD_some]
  rw [if_pos ⟨hturns, hsm⟩, hA]
  rfl

/-- Witness for C1: a conversation pinned to `"claude"` with one recorded
turn rejects an `/ask` requesting `"gemini"` with the mismatch outcome,
unchanged sessions, and no adapter invoked. -/
theorem claim_C1_witness :
    askStep {} "c9" "t2"
      [("c1", { sessionId := .str "s1", turns := 1, created := "t0",
                provider := some "claude" })]
      { prompt := "hi", provider := "gemini", conversationId := "c1" } (.ok (.obj [])) =
      ⟨[("c1", { sessionId := .str "s1", turns := 1, created := "t0",
                 provider := some "claude" })],
       .providerMismatch "claude", none⟩ :=
  claim_C1_pinned_mismatch {} "c9" "t2" _ _ (.ok (.obj [])) "c1" "claude" _
    rfl (by decide) rfl (by decide) (by decide) rfl (by decide)
    (Or.inr (Or.inr rfl)) (by decide) (fun _ => rfl) (fun _ => rfl)

set_option maxRecDepth 4000 in
/-- Counterexample for C8: a conversation created by `POST /new` with
provider `"gemini"` accepts a first `/ask` that runs the claude adapter —
the pinning guard only fires once `turns > 0` — so its first successful
turn used kind `"claude"` while the stored kind remains `"gemini"`: the
stored kind does not equal the kind used by the first successful turn. -/
theorem claim_C8_counterexample :
    (askStep {} "c2" "t1" (newStep "c1" "t0" [] (some "gemini")).1
        { prompt := "hi", provider := "claude", conversationId := "c1" }
        (.ok (.obj []))).outcome.isOk = true ∧
    (askStep {} "c2" "t1" (newStep "c1" "t0" [] (some "gemini")).1
        { prompt := "hi", provider := "claude", conversationId := "c1" }
        (.ok (.obj []))).invoked = some "claude" ∧
    (SMap.find (askStep {} "c2" "t1" (newStep "c1" "t0" [] (some "gemini")).1
        { prompt := "hi", provider := "claude", conversationId := "c1" }
        (.ok (.obj []))).sessions "c1").bind Conv.provider = some "gemini" ∧
    (some "gemini" : Option String) ≠ some "claude" := by
  refine ⟨rfl, rfl, rfl, by decide⟩

/-- C8 amended: the stored agent kind is bound when the conversation is
created (by `/new` with the requested kind, or by `/ask` at creation) and
is immutable thereafter: across any sequence of `/new` and `/ask`
operations whose freshly minted ids differ from the conversation's id, the
stored kind stays what it was — though it may differ from the adapter kind
of the conversation's first successful turn (see the counterexample). -/
theorem claim_C8_amended_pinning (sessions : SMap) (ops : List Op) (cid A : String)
    (conv : Conv) (hfind : SMap.find sessions cid = some conv)
    (hA : conv.provider = some A) (hA0 : A ≠ "")
    (hfresh : ∀ op ∈ ops, op.freshId ≠ cid) :
    ∃ conv', SMap.find (runOps sessions ops) cid = some conv' ∧ conv'.provider = some A := by
  induction ops generalizing sessions conv with
  | nil => exact ⟨conv, hfind, hA⟩
  | cons op rest ih =>
    have hop : ∃ c1, SMap.find (runOp sessions op) cid = some c1 ∧ c1.provider = some A := by
      rcases op with ⟨f, c, bp⟩ | ⟨env, f, c, req, out⟩
      · refine ⟨conv, ?_, hA⟩
        have hf : f ≠ cid := hfresh _ (List.mem_cons_self _ _)
        show SMap.find (SMap.insert sessions f _) cid = some conv
        rw [SMap.find_insert_ne _ _ _ _ (Ne.symm hf)]
        exact hfind
      · obtain ⟨conv', hf, hprov, _⟩ := askStep_preserves env f c sessions req out cid conv
          hfind (hfresh _ (List.mem_cons_self _ _))
        exact ⟨conv', hf, hprov A hA0 hA⟩
    obtain ⟨c1, hf1, hp1⟩ := hop
    simp only [runOps, List.foldl_cons]
    exact ih (runOp sessions op) c1 hf1 hp1 (fun o ho => hfresh o (List.mem_cons_of_mem _ ho))

/-- Witness for C8: a conversation pinned to `"claude"` keeps that stored
kind across a failing `"gemini"` `/ask` and an unrelated `/new`. -/
theorem claim_C8_witness :
    ∃ conv',
      SMap.find (runOps
        [("c1", { sessionId := .null, turns := 1, created := "t0",
                  provider := some "claude" })]
        [Op.ask {} "c7" "t3" { prompt := "x", provider := "gemini", conversationId := "c1" }
          (.error "boom"),
         Op.newConv "c8" "t4" (some "codex")]) "c1" = some conv' ∧
      conv'.provider = some "claude" := by
  refine claim_C8_amended_pinning _ _ "c1" "claude" _ rfl rfl (by decide) ?_
  intro op hop
  rcases List.mem_cons.mp hop with h | h
  · subst h; decide
  · rw [List.mem_singleton] at h; subst h; decide
